import Mathlib

/-!
Shallow embedding of the parkease backend (src/index.js).

The Express handlers become pure functions over an explicit store
(a list of parking lots, each carrying its slots, mirroring the
Prisma queries with `include: { slots: true }`).  Request-body fields
are modelled by `JVal`, a restriction of JSON values to the shapes the
routes inspect (undefined / null / number / string / array of slot
numbers); this is what lets the model reproduce JavaScript truthiness
(`!x`), `Array.isArray`, and the fact that `.includes` throws a
TypeError on values without that method.  JS numbers are modelled as ℚ
(the routes only compare, count and subtract small exact values).
The try/catch wrapper of each handler becomes an `Except` computation
whose error case is mapped to the generic 500 response.
-/

/-- Model of the JSON values the request handlers inspect.  Arrays are
restricted to integer entries, matching the declared payload shape of
the slot-number lists (`filledSlots : [integer]`, `freeSlots : [integer]`). -/
inductive JVal where
  | undefined
  | null
  | num (q : ℚ)
  | str (s : String)
  | arr (xs : List Int)
deriving Repr, DecidableEq, BEq

/-- JavaScript truthiness of a `JVal`, as used by the `!x` guards in the
handlers: `undefined`, `null`, the number 0 and the empty string are falsy;
every array is truthy. -/
def truthy : JVal → Bool
  | .undefined => false
  | .null => false
  | .num q => decide (q ≠ 0)
  | .str s => decide (s ≠ "")
  | .arr _ => true

/-- `Array.isArray`. -/
def isArray : JVal → Bool
  | .arr _ => true
  | _ => false

/-- Auxiliary substring test on character lists: does `needle` occur as a
contiguous run inside the second list? -/
def strContainsAux (needle : List Char) : List Char → Bool
  | [] => needle.isEmpty
  | c :: cs => needle.isPrefixOf (c :: cs) || strContainsAux needle cs

/-- `haystack.includes(needle)` for JavaScript strings: substring occurrence. -/
def jsStrIncludes (haystack needle : String) : Bool :=
  strContainsAux needle.toList haystack.toList

/-- The JavaScript expression `v.includes(n)` for a slot number `n`.
Arrays test membership; strings coerce the argument to its decimal
representation and test substring occurrence; every other value has no
`includes` method and the call throws a TypeError. -/
def jsIncludes : JVal → Int → Except String Bool
  | .arr xs, n => .ok (xs.contains n)
  | .str s, n => .ok (jsStrIncludes s (toString n))
  | _, _ => .error "TypeError: includes is not a function"

/-- `ToLength` coercion used by `Array.from ({ length: v })`: for a number,
its floor clamped to a natural number.  Values whose JS `ToNumber` coercion
is not numeric in this model (the claims only exercise numeric
`totalSlots`) map to 0, as NaN-coercing values do in JS. -/
def toLength : JVal → Nat
  | .num q => (⌊q⌋).toNat
  | _ => 0

/-- The string carried by a `JVal`; non-strings map to "" (the claims only
exercise string-valued `name` and `location` fields). -/
def jvalStr : JVal → String
  | .str s => s
  | _ => ""

/-- The number carried by a `JVal`; non-numbers map to 0 (the claims only
exercise numeric coordinates and slot counts). -/
def jvalNum : JVal → ℚ
  | .num q => q
  | _ => 0

/-- A parking slot row: its number within the lot and its occupancy flag
(`status`, set to `true` when the slot is marked filled). -/
structure Slot where
  slotNumber : Int
  status : Bool
deriving Repr, DecidableEq

/-- A parking-lot row together with its slot rows (the handlers always
query with `include: { slots: true }`). -/
structure ParkingLot where
  name : String
  location : String
  latitude : ℚ
  longitude : ℚ
  totalSlots : ℚ
  slots : List Slot
deriving Repr, DecidableEq

/-- Result of POST /api/lot-details: 404 when no lot has the given name,
otherwise the lot identity together with the three derived counters
exactly as the route computes them. -/
inductive DetailsResult where
  | notFound
  | details (parkingLotName : String) (latitude longitude : ℚ)
      (totalSlots filledSlots availableSlots : Int)
deriving Repr, DecidableEq

/-- POST /api/lot-details: find the first lot with the given name; on a hit
compute `totalSlots = slots.length`,
`filledSlots = slots.filter (s => not s.status).length`,
`availableSlots = totalSlots - filledSlots`. -/
def lotDetails (db : List ParkingLot) (parkingLotName : String) : DetailsResult :=
  match db.find? (fun l => l.name == parkingLotName) with
  | none => .notFound
  | some parkingLot =>
      let totalSlots : Int := parkingLot.slots.length
      let filledSlots : Int := (parkingLot.slots.filter (fun slot => !slot.status)).length
      let availableSlots : Int := totalSlots - filledSlots
      .details parkingLot.name parkingLot.latitude parkingLot.longitude
        totalSlots filledSlots availableSlots

/-- Result of POST /api/nearby-parking-lots: 400 when a coordinate guard
fires, otherwise the filtered list of lots. -/
inductive NearbyResult where
  | invalidRequest
  | found (lots : List ParkingLot)
deriving Repr, DecidableEq

/-- POST /api/nearby-parking-lots.  The route rejects with 400 when
`!userLat || !userLon`; otherwise it keeps the lots whose distance from
the user is at most 10 km.  `dist` abstracts the imported
`calculateDistanceInKM` (its source file is outside this repository
snapshot); the route only compares its result against the threshold. -/
def nearbyParkingLots (dist : JVal → JVal → ℚ → ℚ → ℚ)
    (db : List ParkingLot) (userLat userLon : JVal) : NearbyResult :=
  if !truthy userLat || !truthy userLon then .invalidRequest
  else .found (db.filter (fun lot =>
    decide (dist userLat userLon lot.latitude lot.longitude ≤ 10)))

/-- Request body of PUT /api/update-parking-lot, fields as raw JSON values. -/
structure UpdateReq where
  name : JVal
  location : JVal
  latitude : JVal
  longitude : JVal
  totalSlots : JVal
  filledSlots : JVal
  freeSlots : JVal
deriving Repr, DecidableEq

/-- Result of PUT /api/update-parking-lot: 400 on the creation-path
validation failure, 201 with the created lot, 200 with the updated lot,
or the 500 catch-all when the handler body throws. -/
inductive UpdateResult where
  | invalidRequest
  | created (lot : ParkingLot)
  | updated (lot : ParkingLot)
  | internalError
deriving Repr, DecidableEq

/-- One step of the update loop of PUT /api/update-parking-lot:
`if (filledSlots.includes(slot.slotNumber)) status = true
 else if (freeSlots.includes(slot.slotNumber)) status = false`.
Either `includes` call can throw when the field is not an array/string. -/
def reconcileSlot (filledSlots freeSlots : JVal) (slot : Slot) : Except String Slot := do
  let inFilled ← jsIncludes filledSlots slot.slotNumber
  if inFilled then
    pure { slot with status := true }
  else
    let inFree ← jsIncludes freeSlots slot.slotNumber
    if inFree then pure { slot with status := false } else pure slot

/-- Slot generation on the creation path:
`Array.from ({ length: totalSlots }, (_, index) => ({ slotNumber: index + 1,
status: filledSlots.includes(index + 1) ? true : false }))`. -/
def generateSlots (totalSlots : Nat) (filledSlots : JVal) : Except String (List Slot) :=
  (List.range totalSlots).mapM (fun index : Nat => do
    let occ ← jsIncludes filledSlots ((index : Int) + 1)
    pure { slotNumber := (index : Int) + 1, status := occ })

/-- Replace the first list entry satisfying `p` (the Prisma update is keyed
by the id of the lot that `findFirst` returned). -/
def replaceFirst (p : ParkingLot → Bool) (newLot : ParkingLot) :
    List ParkingLot → List ParkingLot
  | [] => []
  | l :: rest => if p l then newLot :: rest else l :: replaceFirst p newLot rest

/-- Body of PUT /api/update-parking-lot (the part inside the try block).
When no lot matches the name: validate
`!name || !location || !latitude || !longitude || !totalSlots ||
!Array.isArray(filledSlots) || !Array.isArray(freeSlots)` and otherwise
create the lot with its generated slots.  When a lot matches: map
`reconcileSlot` over its slots (no validation on this path) and persist
the new statuses. -/
def updateParkingLotBody (db : List ParkingLot) (req : UpdateReq) :
    Except String (List ParkingLot × UpdateResult) :=
  match db.find? (fun l => req.name == JVal.str l.name) with
  | none =>
      if !truthy req.name || !truthy req.location || !truthy req.latitude
          || !truthy req.longitude || !truthy req.totalSlots
          || !isArray req.filledSlots || !isArray req.freeSlots then
        pure (db, .invalidRequest)
      else do
        let slots ← generateSlots (toLength req.totalSlots) req.filledSlots
        let parkingLot : ParkingLot :=
          { name := jvalStr req.name
            location := jvalStr req.location
            latitude := jvalNum req.latitude
            longitude := jvalNum req.longitude
            totalSlots := jvalNum req.totalSlots
            slots := slots }
        pure (db ++ [parkingLot], .created parkingLot)
  | some parkingLot => do
      let updatedSlots ← parkingLot.slots.mapM (reconcileSlot req.filledSlots req.freeSlots)
      let updatedLot := { parkingLot with slots := updatedSlots }
      pure (replaceFirst (fun l => l.name == parkingLot.name) updatedLot db,
        .updated updatedLot)

/-- PUT /api/update-parking-lot with its catch-all: a thrown exception is
turned into the generic 500 response and the store is left unchanged (the
only throwing step, the `includes` call, precedes every write). -/
def updateParkingLot (db : List ParkingLot) (req : UpdateReq) :
    List ParkingLot × UpdateResult :=
  match updateParkingLotBody db req with
  | .ok result => result
  | .error _ => (db, .internalError)

/-- Result of DELETE /api/parking-lots/:name. -/
inductive DeleteResult where
  | notFound
  | deleted (name : String)
deriving Repr, DecidableEq

/-- Remove the first list entry satisfying `p` (the Prisma delete is keyed
by the id of the lot that `findFirst` returned; its slot rows live inside
the record, so they go with it, which is the cascade the spec requires). -/
def removeFirst (p : ParkingLot → Bool) : List ParkingLot → List ParkingLot
  | [] => []
  | l :: rest => if p l then rest else l :: removeFirst p rest

/-- DELETE /api/parking-lots/:name: 404 when no lot has the name,
otherwise delete the found lot (with its slots) by its id. -/
def deleteParkingLot (db : List ParkingLot) (name : String) :
    List ParkingLot × DeleteResult :=
  match db.find? (fun l => l.name == name) with
  | none => (db, .notFound)
  | some parkingLot =>
      (removeFirst (fun l => l.name == parkingLot.name) db, .deleted name)

/-- Pure effect of one update-loop step when both slot-number fields are
arrays (the only case in which neither `includes` call can throw):
filled-list membership wins, then free-list membership, else unchanged. -/
def applyReconcile (fs ws : List Int) (s : Slot) : Slot :=
  if fs.contains s.slotNumber then { s with status := true }
  else if ws.contains s.slotNumber then { s with status := false }
  else s

/-- Does the value carry a JS `includes` method?  Arrays and strings do;
`undefined`, `null` and numbers do not, so calling it on them throws. -/
def hasIncludes : JVal → Bool
  | .arr _ => true
  | .str _ => true
  | _ => false

/-- The worked example of the spec: create "Lot-A" with totalSlots 3 and
filledSlots [2]. -/
def lotAReq : UpdateReq :=
  { name := .str "Lot-A", location := .str "Central", latitude := .num 1,
    longitude := .num 1, totalSlots := .num 3,
    filledSlots := .arr [2], freeSlots := .arr [] }

/-- A stored three-slot facility with exactly slot 2 occupied — the state
the worked example creates. -/
def demoLot : ParkingLot :=
  { name := "Lot-A", location := "Central", latitude := 1, longitude := 1,
    totalSlots := 3,
    slots := [{ slotNumber := 1, status := false },
              { slotNumber := 2, status := true },
              { slotNumber := 3, status := false }] }

/-- Creation request with totalSlots 0 and every other field well-formed. -/
def zeroTotalReq : UpdateReq :=
  { name := .str "Lot-Z", location := .str "East", latitude := .num 2,
    longitude := .num 2, totalSlots := .num 0,
    filledSlots := .arr [], freeSlots := .arr [] }

/-- A concrete distance function for witnesses: report the facility's
stored latitude as its distance, so latitude 10 sits exactly on the
threshold and latitude 11 beyond it. -/
def distByLat : JVal → JVal → ℚ → ℚ → ℚ := fun _ _ la _ => la

/-- A facility whose `distByLat` distance is exactly 10 km. -/
def lotNear : ParkingLot := { demoLot with name := "Near", latitude := 10 }

/-- A facility whose `distByLat` distance is strictly above 10 km. -/
def lotFar : ParkingLot := { demoLot with name := "Far", latitude := 11 }

/-- Update request on "Lot-A" whose slot 2 appears in both lists. -/
def bothListsReq : UpdateReq :=
  { name := .str "Lot-A", location := .str "Central", latitude := .num 1,
    longitude := .num 1, totalSlots := .num 3,
    filledSlots := .arr [2], freeSlots := .arr [2] }

/-- Update request on "Lot-A" listing only the nonexistent slot 99. -/
def outOfRangeReq : UpdateReq :=
  { bothListsReq with filledSlots := .arr [99], freeSlots := .arr [] }

/-- Update request on "Lot-A" whose filledSlots is the string "abc". -/
def stringFilledReq : UpdateReq :=
  { bothListsReq with filledSlots := .str "abc", freeSlots := .arr [] }

/-- Update request on "Lot-A" with every field except the name missing. -/
def bareUpdateReq : UpdateReq :=
  { name := .str "Lot-A", location := .undefined, latitude := .undefined,
    longitude := .undefined, totalSlots := .undefined,
    filledSlots := .undefined, freeSlots := .undefined }

/-- The facility record the creation path persists: slots numbered from 1,
one per unit of the coerced length, each occupied exactly when its number
is in the filledSlots array. -/
def newLotOf (req : UpdateReq) (fs : List Int) : ParkingLot :=
  { name := jvalStr req.name
    location := jvalStr req.location
    latitude := jvalNum req.latitude
    longitude := jvalNum req.longitude
    totalSlots := jvalNum req.totalSlots
    slots := (List.range (toLength req.totalSlots)).map (fun i : Nat =>
      { slotNumber := (i : Int) + 1, status := fs.contains ((i : Int) + 1) }) }

/-! ## Helper lemmas -/

/-- `mapM` over `Except` of a function that never throws is the pure map. -/
theorem mapM_ok_of_eq {α β : Type} (f : α → Except String β) (g : α → β)
    (hf : ∀ a, f a = pure (g a)) : ∀ l : List α, l.mapM f = .ok (l.map g) := by
  intro l
  rw [← List.mapM'_eq_mapM]
  induction l with
  | nil => rfl
  | cons a as ih => simp [List.mapM'_cons, hf, ih]

/-- `mapM` over `Except` propagates a failure on the head element. -/
theorem mapM_err_head {α β : Type} (f : α → Except String β) (a : α) (l : List α)
    (e : String) (ha : f a = .error e) : (a :: l).mapM f = .error e := by
  rw [← List.mapM'_eq_mapM]
  simp [List.mapM'_cons, ha]
  rfl

/-- Slot generation on an array-valued filledSlots never throws and yields
the slots 1..n with membership-determined statuses. -/
theorem generateSlots_arr (n : Nat) (fs : List Int) :
    generateSlots n (.arr fs) =
      .ok ((List.range n).map (fun i : Nat =>
        { slotNumber := (i : Int) + 1, status := fs.contains ((i : Int) + 1) })) := by
  unfold generateSlots
  apply mapM_ok_of_eq
  intro i
  rfl

/-- Binding an `Except.ok` just applies the continuation. -/
theorem except_ok_bind {α β : Type} (a : α) (f : α → Except String β) :
    (Except.ok a >>= f) = f a := rfl

/-- One update-loop step on array-valued lists never throws and acts as
`applyReconcile`. -/
theorem reconcileSlot_arr (fs ws : List Int) (s : Slot) :
    reconcileSlot (.arr fs) (.arr ws) s = pure (applyReconcile fs ws s) := by
  unfold reconcileSlot applyReconcile jsIncludes
  by_cases h1 : s.slotNumber ∈ fs <;> by_cases h2 : s.slotNumber ∈ ws <;>
    simp [except_ok_bind, h1, h2]

/-- `toLength` of a natural-number-valued field is that number. -/
theorem toLength_natCast (n : Nat) : toLength (.num (n : ℚ)) = n := by
  simp [toLength]

/-- Binding an `Except.error` short-circuits. -/
theorem except_error_bind {α β : Type} (e : String) (f : α → Except String β) :
    ((Except.error e : Except String α) >>= f) = .error e := rfl

/-- `pure` on `Except` is `Except.ok`. -/
theorem except_pure {α : Type} (a : α) : (pure a : Except String α) = .ok a := rfl

/-- `applyReconcile` never changes a slot's number. -/
theorem applyReconcile_slotNumber (fs ws : List Int) (s : Slot) :
    (applyReconcile fs ws s).slotNumber = s.slotNumber := by
  unfold applyReconcile
  split_ifs <;> rfl

/-- Creation path of the update handler: when no lot matches the name and
the validation condition evaluates to false, the handler appends
`newLotOf req fs` to the store and answers 201 with it. -/
theorem update_create (db : List ParkingLot) (req : UpdateReq) (fs : List Int)
    (hfind : db.find? (fun l => req.name == JVal.str l.name) = none)
    (hcond : (!truthy req.name || !truthy req.location || !truthy req.latitude
        || !truthy req.longitude || !truthy req.totalSlots
        || !isArray req.filledSlots || !isArray req.freeSlots) = false)
    (hfs : req.filledSlots = .arr fs) :
    updateParkingLot db req = (db ++ [newLotOf req fs], .created (newLotOf req fs)) := by
  have hgen : generateSlots (toLength req.totalSlots) req.filledSlots =
      .ok ((newLotOf req fs).slots) := by
    rw [hfs]
    exact generateSlots_arr _ fs
  unfold updateParkingLot updateParkingLotBody
  simp only [hfind, hcond, Bool.false_eq_true, if_false, hgen, except_ok_bind, except_pure]
  rfl

/-- Existing-facility path of the update handler with array-valued lists:
the handler maps `applyReconcile` over the stored slots, persists the
result over the found lot and answers 200 with it. -/
theorem update_existing (db : List ParkingLot) (req : UpdateReq) (lot : ParkingLot)
    (fs ws : List Int)
    (hfind : db.find? (fun l => req.name == JVal.str l.name) = some lot)
    (hfs : req.filledSlots = .arr fs) (hws : req.freeSlots = .arr ws) :
    updateParkingLot db req =
      (replaceFirst (fun l => l.name == lot.name)
        { lot with slots := lot.slots.map (applyReconcile fs ws) } db,
       .updated { lot with slots := lot.slots.map (applyReconcile fs ws) }) := by
  have hmap : lot.slots.mapM (reconcileSlot req.filledSlots req.freeSlots) =
      .ok (lot.slots.map (applyReconcile fs ws)) := by
    rw [hfs, hws]
    exact mapM_ok_of_eq _ _ (reconcileSlot_arr fs ws) lot.slots
  unfold updateParkingLot updateParkingLotBody
  simp only [hfind, hmap, except_ok_bind, except_pure]

/-- A name that occurs nowhere among the stored names is never found. -/
theorem find?_none_of_name_not_mem (db : List ParkingLot) (x : String)
    (h : x ∉ db.map ParkingLot.name) :
    db.find? (fun l => l.name == x) = none := by
  rw [List.find?_eq_none]
  intro l hl hx
  exact h (List.mem_map.mpr ⟨l, hl, beq_iff_eq.mp hx⟩)

/-- When stored names are pairwise distinct, removing the lot that a name
lookup found leaves a store in which that name is no longer found. -/
theorem removeFirst_no_name (db : List ParkingLot) (x : String) (lot : ParkingLot)
    (hnd : (db.map ParkingLot.name).Nodup)
    (hfind : db.find? (fun l => l.name == x) = some lot) :
    (removeFirst (fun l => l.name == lot.name) db).find?
      (fun l => l.name == x) = none := by
  induction db with
  | nil => simp at hfind
  | cons a as ih =>
      rw [List.map_cons, List.nodup_cons] at hnd
      obtain ⟨hna, hndas⟩ := hnd
      by_cases ha : a.name = x
      · have hfa : (a :: as).find? (fun l => l.name == x) = some a := by
          simp [List.find?_cons, ha]
        rw [hfa] at hfind
        obtain rfl : a = lot := by injection hfind
        have hrf : removeFirst (fun l => l.name == a.name) (a :: as) = as := by
          unfold removeFirst
          simp
        rw [hrf]
        apply find?_none_of_name_not_mem
        rwa [ha] at hna
      · have hpa : (a.name == x) = false := by
          simp [ha]
        have htail : as.find? (fun l => l.name == x) = some lot := by
          rw [List.find?_cons] at hfind
          rw [hpa] at hfind
          exact hfind
        have hlotx : lot.name = x := by simpa using List.find?_some htail
        have hpa2 : (a.name == lot.name) = false := by
          simp [hlotx, ha]
        have hrf : removeFirst (fun l => l.name == lot.name) (a :: as) =
            a :: removeFirst (fun l => l.name == lot.name) as := by
          simp [removeFirst, hpa2]
        rw [hrf, List.find?_cons, hpa]
        exact ih hndas htail

/-! ## Claim theorems -/

/-- C1 (code bug, evaluation at the failing input): creating "Lot-A" with
totalSlots 3 and filledSlots [2] stores occupancy [false, true, false]
(slot 2 occupied), yet the lot-details lookup then reports filledSlots = 2
and availableSlots = 1 — the route counts the slots whose status flag is
FALSE as filled, the opposite of the convention the creation and update
paths use and of the claimed filledSlots = 1, availableSlots = 2. -/
theorem c1_lot_details_counts_free_as_filled :
    updateParkingLot [] lotAReq = ([demoLot], .created demoLot) ∧
    lotDetails [demoLot] "Lot-A" = .details "Lot-A" 1 1 3 2 1 := by
  constructor <;> rfl

/-- C2: whenever the lot-details lookup answers with derived counters, they
satisfy availableSlots + filledSlots = totalSlots, over any store state —
in particular after any creation or update. -/
theorem c2_counters_sum (db : List ParkingLot) (nm nm2 : String) (la lo : ℚ)
    (t f a : Int) (h : lotDetails db nm = .details nm2 la lo t f a) :
    a + f = t := by
  unfold lotDetails at h
  cases hf : db.find? (fun l => l.name == nm) with
  | none => rw [hf] at h; simp at h
  | some lot =>
      rw [hf] at h
      simp only [DetailsResult.details.injEq] at h
      obtain ⟨-, -, -, ht, hfz, ha⟩ := h
      omega

/-- Witness for C2 at the stored three-slot example lot. -/
theorem c2_counters_sum_witness : (1 : Int) + 2 = 3 :=
  c2_counters_sum [demoLot] "Lot-A" "Lot-A" 1 1 3 2 1 (by rfl)

/-- C4 counterexample: a creation request with totalSlots = 0 and every
other field well-formed is rejected as InvalidRequest (the claim says it
is legal and creates a facility with no slots). -/
theorem c4_zero_total_rejected_cex :
    updateParkingLot [] zeroTotalReq = ([], .invalidRequest) := by rfl

/-- C4 as amended: a reconcile request creating a new facility with
totalSlots = 0 is rejected as InvalidRequest — the truthiness validation
treats the number 0 as a missing field — and no facility is created. -/
theorem c4_zero_total_rejected (db : List ParkingLot) (req : UpdateReq)
    (hfind : db.find? (fun l => req.name == JVal.str l.name) = none)
    (htot : req.totalSlots = .num 0) :
    updateParkingLot db req = (db, .invalidRequest) := by
  have hcond : (!truthy req.name || !truthy req.location || !truthy req.latitude
      || !truthy req.longitude || !truthy req.totalSlots
      || !isArray req.filledSlots || !isArray req.freeSlots) = true := by
    rw [htot]
    simp [truthy]
  unfold updateParkingLot updateParkingLotBody
  simp only [hfind, hcond, if_true, except_pure]

/-- Witness for the amended C4 on a nonempty store. -/
theorem c4_zero_total_rejected_witness :
    updateParkingLot [lotFar] zeroTotalReq = ([lotFar], .invalidRequest) :=
  c4_zero_total_rejected [lotFar] zeroTotalReq (by rfl) (by rfl)

/-- C5: for every distance function (hence for the imported haversine one),
whenever both coordinates pass the guard the route answers exactly the
facilities whose distance is at most 10 km — the boundary is inclusive. -/
theorem c5_nearby_threshold (dist : JVal → JVal → ℚ → ℚ → ℚ)
    (db : List ParkingLot) (userLat userLon : JVal)
    (hla : truthy userLat = true) (hlo : truthy userLon = true) :
    ∃ lots, nearbyParkingLots dist db userLat userLon = .found lots ∧
      ∀ lot, lot ∈ lots ↔
        (lot ∈ db ∧ dist userLat userLon lot.latitude lot.longitude ≤ 10) := by
  refine ⟨db.filter (fun lot =>
    decide (dist userLat userLon lot.latitude lot.longitude ≤ 10)), ?_, ?_⟩
  · unfold nearbyParkingLots
    rw [hla, hlo]
    rfl
  · intro lot
    rw [List.mem_filter]
    simp

/-- Witness for C5: with the latitude-as-distance function, the facility at
exactly 10 km and the one at 11 km are classified by the 10 km threshold. -/
theorem c5_nearby_threshold_witness :
    ∃ lots, nearbyParkingLots distByLat [lotNear, lotFar] (.num 5) (.num 5) = .found lots ∧
      ∀ lot, lot ∈ lots ↔
        (lot ∈ [lotNear, lotFar] ∧ distByLat (.num 5) (.num 5) lot.latitude lot.longitude ≤ 10) :=
  c5_nearby_threshold distByLat [lotNear, lotFar] (.num 5) (.num 5) (by rfl) (by rfl)

/-- C6 counterexample: with userLat = 0 and userLon = 5 — both present and
numeric — the route rejects with InvalidRequest instead of performing the
proximity search, because the guard `!userLat` treats 0 as absent. -/
theorem c6_zero_coordinate_cex :
    nearbyParkingLots distByLat [demoLot] (.num 0) (.num 5) = .invalidRequest := by rfl

/-- C6 as amended: the nearby-parking-lots operation fails with
InvalidRequest exactly when userLat or userLon is absent or falsy (the
coordinate value 0 and the empty string are treated as absent); for every
request in which both coordinates are truthy, the proximity search is
performed. -/
theorem c6_truthiness_guard (dist : JVal → JVal → ℚ → ℚ → ℚ)
    (db : List ParkingLot) (userLat userLon : JVal) :
    (nearbyParkingLots dist db userLat userLon = .invalidRequest ↔
      (truthy userLat = false ∨ truthy userLon = false)) ∧
    (truthy userLat = true → truthy userLon = true →
      nearbyParkingLots dist db userLat userLon =
        .found (db.filter (fun lot =>
          decide (dist userLat userLon lot.latitude lot.longitude ≤ 10)))) := by
  unfold nearbyParkingLots
  cases h1 : truthy userLat <;> cases h2 : truthy userLon <;> simp [h1, h2]

/-- Witness for the amended C6 at concrete truthy coordinates. -/
theorem c6_truthiness_guard_witness :
    (nearbyParkingLots distByLat [demoLot] (.num 3) (.num 4) = .invalidRequest ↔
      (truthy (.num 3) = false ∨ truthy (.num 4) = false)) ∧
    (truthy (.num 3) = true → truthy (.num 4) = true →
      nearbyParkingLots distByLat [demoLot] (.num 3) (.num 4) =
        .found ([demoLot].filter (fun lot =>
          decide (distByLat (.num 3) (.num 4) lot.latitude lot.longitude ≤ 10)))) :=
  c6_truthiness_guard distByLat [demoLot] (.num 3) (.num 4)

/-- C3: for every reconcile request on an absent name that passes the
creation-path validation, with totalSlots the natural number n and both
lists arrays, the created facility has exactly n slots numbered 1..n,
each occupied exactly when its number is in the filledSlots list (numbers
in neither list default to free). -/
theorem c3_creation_generates_slots (db : List ParkingLot) (req : UpdateReq)
    (n : Nat) (fs ws : List Int)
    (hfind : db.find? (fun l => req.name == JVal.str l.name) = none)
    (hname : truthy req.name = true) (hloc : truthy req.location = true)
    (hlat : truthy req.latitude = true) (hlon : truthy req.longitude = true)
    (htruthy : truthy req.totalSlots = true)
    (htot : req.totalSlots = .num (n : ℚ))
    (hfs : req.filledSlots = .arr fs) (hws : req.freeSlots = .arr ws) :
    ∃ lot, updateParkingLot db req = (db ++ [lot], .created lot) ∧
      lot.slots = (List.range n).map (fun i : Nat =>
        { slotNumber := (i : Int) + 1, status := fs.contains ((i : Int) + 1) }) ∧
      lot.slots.length = n ∧
      (∀ s ∈ lot.slots, (s.status = true ↔ s.slotNumber ∈ fs)) := by
  have hcond : (!truthy req.name || !truthy req.location || !truthy req.latitude
      || !truthy req.longitude || !truthy req.totalSlots
      || !isArray req.filledSlots || !isArray req.freeSlots) = false := by
    simp [hname, hloc, hlat, hlon, htruthy, hfs, hws, isArray]
  have hslots : (newLotOf req fs).slots = (List.range n).map (fun i : Nat =>
      { slotNumber := (i : Int) + 1, status := fs.contains ((i : Int) + 1) }) := by
    simp only [newLotOf, htot, toLength_natCast]
  refine ⟨newLotOf req fs, update_create db req fs hfind hcond hfs, hslots, ?_, ?_⟩
  · rw [hslots]
    simp only [List.length_map, List.length_range]
  · intro s hs
    rw [hslots] at hs
    simp only [List.mem_map, List.mem_range] at hs
    obtain ⟨i, -, rfl⟩ := hs
    simp

/-- Witness for C3: the worked example (totalSlots 3, filledSlots [2]) on
an empty store. -/
theorem c3_creation_generates_slots_witness :
    ∃ lot, updateParkingLot [] lotAReq = ([] ++ [lot], .created lot) ∧
      lot.slots = (List.range 3).map (fun i : Nat =>
        { slotNumber := (i : Int) + 1, status := List.contains [2] ((i : Int) + 1) }) ∧
      lot.slots.length = 3 ∧
      (∀ s ∈ lot.slots, (s.status = true ↔ s.slotNumber ∈ [2])) :=
  c3_creation_generates_slots [] lotAReq 3 [2] []
    (by rfl) (by rfl) (by rfl) (by rfl) (by rfl) (by rfl) (by simp [lotAReq]) (by rfl) (by rfl)

/-- C7: when the reconcile request targets an existing facility with both
lists arrays, the handler rewrites each stored slot with `applyReconcile`,
and a slot whose number is in both lists ends up occupied — the
filledSlots membership is tested first. -/
theorem c7_fill_precedence (db : List ParkingLot) (req : UpdateReq)
    (lot : ParkingLot) (fs ws : List Int)
    (hfind : db.find? (fun l => req.name == JVal.str l.name) = some lot)
    (hfs : req.filledSlots = .arr fs) (hws : req.freeSlots = .arr ws) :
    ∃ lot2, updateParkingLot db req =
        (replaceFirst (fun l => l.name == lot.name) lot2 db, .updated lot2) ∧
      lot2.slots = lot.slots.map (applyReconcile fs ws) ∧
      (∀ s : Slot, s.slotNumber ∈ fs → s.slotNumber ∈ ws →
        (applyReconcile fs ws s).status = true) := by
  refine ⟨_, update_existing db req lot fs ws hfind hfs hws, rfl, ?_⟩
  intro s hf _
  simp [applyReconcile, hf]

/-- Witness for C7: slot 2 listed both in filledSlots and freeSlots on the
stored example lot. -/
theorem c7_fill_precedence_witness :
    ∃ lot2, updateParkingLot [demoLot] bothListsReq =
        (replaceFirst (fun l => l.name == demoLot.name) lot2 [demoLot], .updated lot2) ∧
      lot2.slots = demoLot.slots.map (applyReconcile [2] [2]) ∧
      (∀ s : Slot, s.slotNumber ∈ [2] → s.slotNumber ∈ [2] →
        (applyReconcile [2] [2] s).status = true) :=
  c7_fill_precedence [demoLot] bothListsReq demoLot [2] [2] (by rfl) (by rfl) (by rfl)

/-- C8: on an update of an existing facility with both lists arrays, the
handler succeeds with a 200, keeps every slot number unchanged (no slot is
created or resized, so listed numbers without a matching slot are silently
ignored), leaves every slot whose number is in neither list untouched, and
an update with both lists empty changes no slot at all. -/
theorem c8_frame_unlisted_slots (db : List ParkingLot) (req : UpdateReq)
    (lot : ParkingLot) (fs ws : List Int)
    (hfind : db.find? (fun l => req.name == JVal.str l.name) = some lot)
    (hfs : req.filledSlots = .arr fs) (hws : req.freeSlots = .arr ws) :
    ∃ lot2, updateParkingLot db req =
        (replaceFirst (fun l => l.name == lot.name) lot2 db, .updated lot2) ∧
      lot2.slots = lot.slots.map (applyReconcile fs ws) ∧
      lot2.slots.map Slot.slotNumber = lot.slots.map Slot.slotNumber ∧
      (∀ s : Slot, s.slotNumber ∉ fs → s.slotNumber ∉ ws →
        applyReconcile fs ws s = s) ∧
      (fs = [] → ws = [] → lot2.slots = lot.slots) := by
  refine ⟨_, update_existing db req lot fs ws hfind hfs hws, rfl, ?_, ?_, ?_⟩
  · simp [List.map_map, Function.comp, applyReconcile_slotNumber]
  · intro s hf hw
    simp [applyReconcile, hf, hw]
  · intro hfe hwe
    subst hfe
    subst hwe
    have hid : ∀ s : Slot, applyReconcile [] [] s = s := by
      intro s
      simp [applyReconcile]
    have hfun : applyReconcile [] [] = id := funext hid
    rw [hfun, List.map_id]

/-- Witness for C8: the out-of-range request filledSlots = [99] on the
stored three-slot example lot. -/
theorem c8_frame_unlisted_slots_witness :
    ∃ lot2, updateParkingLot [demoLot] outOfRangeReq =
        (replaceFirst (fun l => l.name == demoLot.name) lot2 [demoLot], .updated lot2) ∧
      lot2.slots = demoLot.slots.map (applyReconcile [99] []) ∧
      lot2.slots.map Slot.slotNumber = demoLot.slots.map Slot.slotNumber ∧
      (∀ s : Slot, s.slotNumber ∉ [99] → s.slotNumber ∉ ([] : List Int) →
        applyReconcile [99] [] s = s) ∧
      ([99] = ([] : List Int) → ([] : List Int) = [] → lot2.slots = demoLot.slots) :=
  c8_frame_unlisted_slots [demoLot] outOfRangeReq demoLot [99] [] (by rfl) (by rfl) (by rfl)

/-- C9: with pairwise-distinct stored names, deleting an absent name
answers NotFound and changes nothing, while deleting a found facility
removes it (together with its slot records, which live inside it), after
which both a lot-details lookup and a second delete by that name answer
NotFound. -/
theorem c9_delete_removes_facility (db : List ParkingLot) (name : String)
    (hnd : (db.map ParkingLot.name).Nodup) :
    (db.find? (fun l => l.name == name) = none →
      deleteParkingLot db name = (db, .notFound)) ∧
    (∀ lot, db.find? (fun l => l.name == name) = some lot →
      (deleteParkingLot db name).2 = .deleted name ∧
      lotDetails (deleteParkingLot db name).1 name = .notFound ∧
      deleteParkingLot (deleteParkingLot db name).1 name =
        ((deleteParkingLot db name).1, .notFound)) := by
  constructor
  · intro h
    unfold deleteParkingLot
    simp only [h]
  · intro lot h
    have hafter := removeFirst_no_name db name lot hnd h
    have hdel : deleteParkingLot db name =
        (removeFirst (fun l => l.name == lot.name) db, .deleted name) := by
      unfold deleteParkingLot
      simp only [h]
    rw [hdel]
    refine ⟨rfl, ?_, ?_⟩
    · unfold lotDetails
      simp only [hafter]
    · unfold deleteParkingLot
      simp only [hafter]

/-- Witness for C9: deleting the stored example lot, then looking it up
and deleting it again. -/
theorem c9_delete_removes_facility_witness :
    (deleteParkingLot [demoLot] "Lot-A").2 = .deleted "Lot-A" ∧
    lotDetails (deleteParkingLot [demoLot] "Lot-A").1 "Lot-A" = .notFound ∧
    deleteParkingLot (deleteParkingLot [demoLot] "Lot-A").1 "Lot-A" =
      ((deleteParkingLot [demoLot] "Lot-A").1, .notFound) :=
  (c9_delete_removes_facility [demoLot] "Lot-A" (by simp)).2 demoLot (by rfl)

/-- C10 counterexample: reconciling the existing "Lot-A" with filledSlots
the string "abc" — present but not list-shaped — does not fail with the
generic internal failure: a string has an `includes` method, so the
handler succeeds with a 200 and leaves the slots unchanged. -/
theorem c10_string_filled_slots_cex :
    updateParkingLot [demoLot] stringFilledReq = ([demoLot], .updated demoLot) := by rfl

/-- C10 as amended: when the reconcile targets an existing facility that
has at least one slot, no input validation is performed: a filledSlots
field that is missing or carries no `includes` method (undefined, null or
a number — though not a string, which is searched as text and succeeds) is
not rejected as InvalidRequest but fails with the generic internal
failure, the membership check throwing into the catch-all handler; the
required-fields check applies only on the creation path. -/
theorem c10_no_validation_on_existing (db : List ParkingLot) (req : UpdateReq)
    (lot : ParkingLot)
    (hfind : db.find? (fun l => req.name == JVal.str l.name) = some lot)
    (hne : lot.slots ≠ [])
    (hinc : hasIncludes req.filledSlots = false) :
    updateParkingLot db req = (db, .internalError) := by
  obtain ⟨s, rest, hsl⟩ : ∃ s rest, lot.slots = s :: rest := by
    cases hc : lot.slots with
    | nil => exact absurd hc hne
    | cons s rest => exact ⟨s, rest, rfl⟩
  have hjs : jsIncludes req.filledSlots s.slotNumber =
      .error "TypeError: includes is not a function" := by
    cases hv : req.filledSlots <;> rw [hv] at hinc <;>
      first
        | rfl
        | simp [hasIncludes] at hinc
  have herr : reconcileSlot req.filledSlots req.freeSlots s =
      .error "TypeError: includes is not a function" := by
    unfold reconcileSlot
    rw [hjs]
    rfl
  have hbody : updateParkingLotBody db req =
      .error "TypeError: includes is not a function" := by
    unfold updateParkingLotBody
    simp only [hfind, hsl]
    rw [mapM_err_head _ s rest _ herr]
    rfl
  unfold updateParkingLot
  rw [hbody]

/-- Witness for the amended C10: an update of the stored example lot with
every field but the name missing answers the generic internal failure, not
InvalidRequest. -/
theorem c10_no_validation_on_existing_witness :
    updateParkingLot [demoLot] bareUpdateReq = ([demoLot], .internalError) :=
  c10_no_validation_on_existing [demoLot] bareUpdateReq demoLot
    (by rfl) (by simp [demoLot]) (by rfl)
